import Mathlib

/-!
Shallow embedding of the posture-classification server
(model_predictor.py and statistics_api.py) over exact rationals.

Numeric conventions: Python floats are modelled as ℚ (real-number
semantics of the arithmetic in the source); NumPy float division of a
positive number by zero yields +infinity, which after the source's
min(0.9, _) cap collapses to 0.9, and the embedding encodes that case
explicitly where it is reachable.  Python round() on floats is modelled
as round-half-to-even on the exact rational.
-/

namespace SoftElectronic

/-- Truncation toward zero, the semantics of Python int() on a float. -/
def pyTrunc (x : ℚ) : ℤ := if x < 0 then ⌈x⌉ else ⌊x⌋

/-- Round to the nearest integer, ties to even (Python round-half-even). -/
def roundHalfEven (x : ℚ) : ℤ :=
  let f := ⌊x⌋
  let r := x - f
  if r < 1/2 then f
  else if 1/2 < r then f + 1
  else if f % 2 = 0 then f else f + 1

/-- Python round(x, 2) on the exact rational. -/
def round2 (x : ℚ) : ℚ := (roundHalfEven (x * 100) : ℚ) / 100

/-- Python round(x, 3) on the exact rational. -/
def round3 (x : ℚ) : ℚ := (roundHalfEven (x * 1000) : ℚ) / 1000

/-- The final confidence adjustment applied throughout model_predictor.py:
max(0.3, min(0.95, c)). -/
def clampConfidence (c : ℚ) : ℚ := max (3/10) (min (19/20) c)

/-- Mean of a list of rationals (np.mean); the source only applies it to
nonempty slices. -/
def listMean (l : List ℚ) : ℚ := l.sum / l.length

/-- Maximum of a list of rationals (np.max); the source only applies it to
nonempty slices. -/
def listMax : List ℚ → ℚ
  | [] => 0
  | a :: as => as.foldl max a

/-- EnsemblePosturePredictor.preprocess_data: the FSR vector is padded with
trailing zeros when shorter than 11, truncated to its first 11 entries when
longer, and returned unchanged when its length is exactly 11. -/
def preprocess_data (fsr_data : List ℚ) : List ℚ :=
  if fsr_data.length ≠ 11 then
    if fsr_data.length < 11 then
      fsr_data ++ List.replicate (11 - fsr_data.length) 0
    else
      fsr_data.take 11
  else
    fsr_data

/-- Sum of the first five sensors (fsr_data[:5]). -/
def leftPressure (fsr : List ℚ) : ℚ := (fsr.take 5).sum

/-- Sum of the remaining sensors (fsr_data[5:]). -/
def rightPressure (fsr : List ℚ) : ℚ := (fsr.drop 5).sum

/-- Sum over the fixed front index set fsr_data[[0, 1, 5, 6]]. -/
def frontPressure (fsr : List ℚ) : ℚ :=
  fsr.getD 0 0 + fsr.getD 1 0 + fsr.getD 5 0 + fsr.getD 6 0

/-- Sum over the fixed back index set fsr_data[[3, 4, 8, 9]]. -/
def backPressure (fsr : List ℚ) : ℚ :=
  fsr.getD 3 0 + fsr.getD 4 0 + fsr.getD 8 0 + fsr.getD 9 0

/-- Raw dominance-branch confidence min(0.9, (dominant/weaker - 1) * 0.5 + 0.6).
When the weaker side is exactly zero the NumPy float quotient of the (then
necessarily positive) dominant side is +infinity and the min yields 0.9. -/
def dominanceConfidence (dominant weaker : ℚ) : ℚ :=
  if weaker = 0 then 9/10
  else min (9/10) ((dominant / weaker - 1) * (1/2) + 6/10)

/-- EnsemblePosturePredictor.analyze_fsr_pattern: rule-based posture
classification from the FSR pattern.  Zero total pressure returns the default
(0, 0.5); a vector too short for the fancy index sets raises IndexError in the
source, which its own exception handler turns into (0, 0.5); otherwise a fixed
decision tree on left/right and front/back pressure sums picks the label, and
the confidence is clamped to [0.3, 0.95] at the end. -/
def analyze_fsr_pattern (fsr_data : List ℚ) : ℤ × ℚ :=
  let total_pressure := fsr_data.sum
  if total_pressure = 0 then (0, 1/2)
  else if fsr_data.length < 10 then (0, 1/2)
  else
    let left_pressure := leftPressure fsr_data
    let right_pressure := rightPressure fsr_data
    let front_pressure := frontPressure fsr_data
    let back_pressure := backPressure fsr_data
    let branch : ℤ × ℚ :=
      if left_pressure > right_pressure * (3/2) then
        ((if front_pressure > back_pressure then (7 : ℤ) else 5),
         dominanceConfidence left_pressure right_pressure)
      else if right_pressure > left_pressure * (3/2) then
        ((if front_pressure > back_pressure then (6 : ℤ) else 4),
         dominanceConfidence right_pressure left_pressure)
      else if front_pressure > back_pressure * (13/10) then
        let label : ℤ :=
          if listMax (fsr_data.take 3) > listMean fsr_data * (3/2) then 2
          else if listMean (fsr_data.take 5) > listMean (fsr_data.drop 5) * (6/5) then 1
          else 3
        (label, dominanceConfidence front_pressure back_pressure)
      else
        let balance_score := 1 - |left_pressure - right_pressure| / total_pressure
        (0, min (19/20) (balance_score + 3/10))
    (branch.1, clampConfidence branch.2)

/-- An opaquely loaded scored model: predict may raise (None) and the
optional probability capability may itself raise.  The rule-based
placeholder installed when no learned model loads is represented with the
name "rule_based", mirroring the sentinel key used by the source. -/
structure MLModel where
  name : String
  predictFn : List ℚ → Option ℤ
  hasProba : Bool
  probaFn : List ℚ → Option (List ℚ)

/-- The fixed per-model weight table self.model_weights, with the dict.get
default of 1.0 for unknown names. -/
def model_weights (name : String) : ℚ :=
  if name = "lr" then 3/10
  else if name = "rf" then 7/20
  else if name = "dt" then 1/5
  else if name = "kn" then 3/20
  else 1

/-- Accumulator state of the per-model voting loops in ensemble_predict and
stage2_predict: the predictions and confidences dicts (as append-ordered
association lists) plus the length-8 voting_scores vector. -/
structure VoteState where
  predictions : List (String × ℤ)
  confidences : List (String × ℚ)
  voting : List ℚ

/-- Initial voting state: np.zeros(len(self.posture_labels)). -/
def initVoteState : VoteState := ⟨[], [], List.replicate 8 0⟩

/-- In-place update voting_scores[pred] += w at a nonnegative index. -/
def addAt (l : List ℚ) (i : ℕ) (w : ℚ) : List ℚ :=
  l.modify (fun v => v + w) i

/-- One iteration of the simple-vote branch voting_scores[pred] += weight.
Python indexing admits negative indices down to -len (they wrap around);
an index below -len raises IndexError, which the surrounding handler
swallows, leaving the state as it was. -/
def simpleVote (voting : List ℚ) (pred : ℤ) (w : ℚ) : List ℚ :=
  if 0 ≤ pred then addAt voting pred.toNat w
  else if -(voting.length : ℤ) ≤ pred then addAt voting (voting.length - (-pred).toNat) w
  else voting

/-- One iteration of the ensemble_predict model loop.  A model named
"rule_based" is skipped; a failed predict is skipped; after a successful
predict the prediction is recorded, and the probability vote (or the simple
weighted vote) is accumulated, any later exception in the iteration being
caught with the recorded prediction left in place.  A probability vector
whose length differs from the 8-entry accumulator raises on the NumPy
addition and is likewise swallowed after the prediction was recorded. -/
def stepModel (features : List ℚ) (st : VoteState) (m : MLModel) : VoteState :=
  if m.name = "rule_based" then st
  else
    match m.predictFn features with
    | none => st
    | some pred =>
      let st1 : VoteState := { st with predictions := st.predictions ++ [(m.name, pred)] }
      if m.hasProba then
        match m.probaFn features with
        | none => st1
        | some proba =>
          if proba.length = st1.voting.length then
            { st1 with
              confidences := st1.confidences ++ [(m.name, listMax proba)],
              voting := List.zipWith (fun v p => v + p * model_weights m.name) st1.voting proba }
          else st1
      else
        let st2 : VoteState := { st1 with confidences := st1.confidences ++ [(m.name, 7/10)] }
        if pred < (st2.voting.length : ℤ) then
          { st2 with voting := simpleVote st2.voting pred (model_weights m.name) }
        else st2

/-- Index of the first maximal entry (np.argmax); 0 on the empty list. -/
def argmaxAux : List ℚ → ℕ → ℕ → ℚ → ℕ
  | [], _, besti, _ => besti
  | x :: xs, i, besti, bestv =>
    if x > bestv then argmaxAux xs (i + 1) i x else argmaxAux xs (i + 1) besti bestv

/-- First index attaining the maximum of the list. -/
def argmaxIdx : List ℚ → ℕ
  | [] => 0
  | x :: xs => argmaxAux xs 1 0 x

/-- Distinct values of a list in first-occurrence order, the key order a
Python Counter preserves. -/
def firstUniques : List ℤ → List ℤ
  | [] => []
  | x :: xs => x :: firstUniques (xs.filter (fun y => y ≠ x))
termination_by l => l.length
decreasing_by
  simp only [List.length_cons]
  exact Nat.lt_succ_of_le (List.length_filter_le _ _)

/-- Number of occurrences of x in l. -/
def countOcc (l : List ℤ) (x : ℤ) : ℕ := (l.filter (fun y => y = x)).length

/-- Counter(l).most_common(1)[0][0]: the most frequent value, ties broken in
favour of the earliest-inserted key (Python max over insertion order). -/
def mostCommon (l : List ℤ) : ℤ :=
  (firstUniques l).foldl
    (fun best k => if countOcc l k > countOcc l best then k else best)
    ((firstUniques l).headD 0)

/-- EnsemblePosturePredictor.ensemble_predict, with the optional scaler
folded into the opaque model functions (they receive the same features the
source hands to every model).  Returns the (label, confidence) pair together
with a flag recording whether the all-models-failed branch fell back to
analyze_fsr_pattern. -/
def ensemble_predict (models : List MLModel) (features : List ℚ) :
    (ℤ × ℚ) × Bool :=
  let st := models.foldl (stepModel features) initVoteState
  if st.predictions.length = 0 then
    (analyze_fsr_pattern features, true)
  else
    let s := st.voting.sum
    let final_prediction : ℤ :=
      if 0 < s then (argmaxIdx st.voting : ℤ)
      else mostCommon (st.predictions.map (fun p => p.2))
    let final_confidence : ℚ :=
      if 0 < s then st.voting.getD (argmaxIdx st.voting) 0 / s else 1/2
    ((final_prediction, clampConfidence final_confidence), false)

/-- One iteration of the stage2_predict model loop; identical to the stage-1
loop except that there is no rule-based sentinel to skip and no warning-only
else branch on the index test. -/
def stepModelStage2 (features : List ℚ) (st : VoteState) (m : MLModel) : VoteState :=
  match m.predictFn features with
  | none => st
  | some pred =>
    let st1 : VoteState := { st with predictions := st.predictions ++ [(m.name, pred)] }
    if m.hasProba then
      match m.probaFn features with
      | none => st1
      | some proba =>
        if proba.length = st1.voting.length then
          { st1 with
            confidences := st1.confidences ++ [(m.name, listMax proba)],
            voting := List.zipWith (fun v p => v + p * model_weights m.name) st1.voting proba }
        else st1
    else
      let st2 : VoteState := { st1 with confidences := st1.confidences ++ [(m.name, 7/10)] }
      if pred < (st2.voting.length : ℤ) then
        { st2 with voting := simpleVote st2.voting pred (model_weights m.name) }
      else st2

/-- EnsemblePosturePredictor.stage2_predict: IMU-based second-stage ensemble.
Returns (0, 0.5) when no stage-2 model is loaded or every stage-2 model
fails; otherwise the weighted vote, with the degenerate all-zero-votes case
resolved by Counter majority at confidence 0.6, clamped at the end. -/
def stage2_predict (models_stage2 : List MLModel) (imu_features : List ℚ) : ℤ × ℚ :=
  if models_stage2.isEmpty = true then (0, 1/2)
  else
    let st := models_stage2.foldl (stepModelStage2 imu_features) initVoteState
    if st.predictions.length = 0 then (0, 1/2)
    else
      let s := st.voting.sum
      let final : ℤ × ℚ :=
        if 0 < s then
          ((argmaxIdx st.voting : ℤ), st.voting.getD (argmaxIdx st.voting) 0 / s)
        else
          (mostCommon (st.predictions.map (fun p => p.2)), 3/5)
      (final.1, clampConfidence final.2)

/-- EnsemblePosturePredictor.preprocess_imu_data.  The inertial payload is
modelled as Option (List ℚ): none covers an absent or falsy payload, some l
a truthy payload of extracted numeric features (a dict payload yields its
six accel/gyro fields, so length exactly 6).  Payloads with fewer than six
entries fall back to np.zeros(6), longer ones are truncated to six. -/
def preprocess_imu_data : Option (List ℚ) → List ℚ
  | none => List.replicate 6 0
  | some l => if 6 ≤ l.length then l.take 6 else List.replicate 6 0

/-- Lines 365-390 of model_predictor.py: the conditional stage-2 cascade.
When the stage-1 label is ambiguous (0 or 1), inertial data is truthy and at
least one stage-2 model is loaded, stage-2 runs and its result replaces the
stage-1 result exactly when its label differs from 0 and its confidence
exceeds 0.6; in every other configuration the stage-1 pair is kept. -/
def stage2_override (stage1 : ℤ × ℚ) (imu_data : Option (List ℚ))
    (models_stage2 : List MLModel) : ℤ × ℚ :=
  if (stage1.1 = 0 ∨ stage1.1 = 1) ∧ imu_data.isSome = true ∧ models_stage2.isEmpty = false then
    let s2 := stage2_predict models_stage2 (preprocess_imu_data imu_data)
    if s2.1 ≠ 0 ∧ s2.2 > 3/5 then s2 else stage1
  else stage1

/-- Stage-1 dispatch in predict_posture: the ensemble runs only when the
model map has more than one entry and does not contain the rule-based
placeholder; otherwise analyze_fsr_pattern is used directly.  The Bool
records whether the returned result came from analyze_fsr_pattern (either
via the direct branch or via the ensemble all-models-failed fallback). -/
def stage1_predict (models : List MLModel) (features : List ℚ) :
    (ℤ × ℚ) × Bool :=
  if models.length > 1 ∧ models.all (fun m => ¬ m.name = "rule_based") then
    ensemble_predict models features
  else
    (analyze_fsr_pattern features, true)

/-- Environment of a predict_posture call: the loaded stage-1 and stage-2
model maps, whether an exception escapes the try body to the outer handler
(non-numeric input, logging failure, ...), and the values the two
random-module draws of the handler would produce. -/
structure PredictEnv where
  models : List MLModel
  models_stage2 : List MLModel
  raiseInBody : Bool
  randLabel : ℤ
  randConf : ℚ

/-- EnsemblePosturePredictor.predict_posture: preprocessing, stage-1
dispatch, conditional stage-2 override, coercion of out-of-range labels to
(0, 0.5), and the catch-all handler returning the random draws. -/
def predict_posture (env : PredictEnv) (fsr_data : List ℚ)
    (imu_data : Option (List ℚ)) : ℤ × ℚ :=
  if env.raiseInBody then (env.randLabel, env.randConf)
  else
    let features := preprocess_data fsr_data
    let stage1 := (stage1_predict env.models features).1
    let result := stage2_override stage1 imu_data env.models_stage2
    if 0 ≤ result.1 ∧ result.1 ≤ 7 then result else (0, 1/2)

/-- One row of the posture_predictions log as consumed by
calculate_posture_durations: timestamp (seconds on a linear clock),
predicted label and confidence. -/
structure PRecord where
  ts : ℚ
  label : ℤ
  conf : ℚ

/-- One reconstructed posture session (statistics_api.py session dict);
the display-only posture_name string is not modelled. -/
structure PostureSession where
  posture_id : ℤ
  start_time : ℚ
  end_time : ℚ
  duration_minutes : ℚ
  avg_confidence : ℚ

/-- Build the session dict appended by calculate_posture_durations. -/
def mkSession (cur : ℤ) (start stop : ℚ) (confs : List ℚ) : PostureSession :=
  { posture_id := cur
    start_time := start
    end_time := stop
    duration_minutes := round2 ((stop - start) / 60)
    avg_confidence := if confs.isEmpty = true then 0 else round3 (confs.sum / confs.length) }

/-- The record loop of calculate_posture_durations: cur/start/confs are the
open session's state, lastTs the timestamp of the last consumed record (the
source closes the final session at records[-1].timestamp).  A label change
closes the open session, which is kept only when its duration is strictly
positive. -/
def sessionsLoop : List PRecord → ℤ → ℚ → ℚ → List ℚ → List PostureSession
  | [], cur, start, lastTs, confs =>
    if 0 < (lastTs - start) / 60 then [mkSession cur start lastTs confs] else []
  | r :: rest, cur, start, _lastTs, confs =>
    if r.label = cur then
      sessionsLoop rest cur start r.ts (confs ++ [r.conf])
    else
      (if 0 < (r.ts - start) / 60 then [mkSession cur start r.ts confs] else [])
        ++ sessionsLoop rest r.label r.ts r.ts [r.conf]

/-- StatisticsDatabase.calculate_posture_durations on an already filtered,
time-ordered record list (the SQL layer orders by timestamp). -/
def calculate_posture_durations : List PRecord → List PostureSession
  | [] => []
  | r :: rest => sessionsLoop rest r.label r.ts r.ts [r.conf]

/-- Boolean check that every record timestamp is at least t and the tail is
itself time-ordered. -/
def tsSortedFrom (t : ℚ) : List PRecord → Bool
  | [] => true
  | r :: rest => decide (t ≤ r.ts) && tsSortedFrom r.ts rest

/-- Boolean check that the record list has non-decreasing timestamps. -/
def tsSorted : List PRecord → Bool
  | [] => true
  | r :: rest => tsSortedFrom r.ts rest

/-- The session list tiles the time interval from a to b: each session
starts where the previous one ended, the first at a, the last ending at b
(an empty list forces a = b). -/
def covers : ℚ → List PostureSession → ℚ → Prop
  | a, [], b => a = b
  | a, s :: rest, b => s.start_time = a ∧ covers s.end_time rest b

/-- Timestamps of the records at which the label differs from the previous
record's label, the previous label starting at cur. -/
def changePoints : ℤ → List PRecord → List ℚ
  | _, [] => []
  | cur, r :: rest =>
    if r.label = cur then changePoints cur rest else r.ts :: changePoints r.label rest

/-- Timestamp of the first record (0 on the empty list). -/
def firstTs (recs : List PRecord) : ℚ := ((recs.map PRecord.ts).headD 0)

/-- Timestamp of the last record, with a default for the empty list. -/
def lastTsD : List PRecord → ℚ → ℚ
  | [], d => d
  | r :: rest, _ => lastTsD rest r.ts

/-- Placeholder session used only as the default of getLastD. -/
def dummySession : PostureSession := ⟨0, 0, 0, 0, 0⟩

/-- Session-start timestamps admitted by the segmentation: the first record
or any record whose label differs from its predecessor's. -/
def boundaryTimes : List PRecord → List ℚ
  | [] => []
  | r :: rest => r.ts :: changePoints r.label rest

/-- One aggregated row of get_posture_statistics (PostureTimeStats); the
display-only name and first/last-detected strings are not modelled. -/
structure PostureTimeStats where
  posture_id : ℤ
  total_duration_minutes : ℚ
  session_count : ℕ
  average_session_duration : ℚ
  percentage : ℚ

/-- Stable descending insertion by total_duration_minutes, matching the
stable Python sort with reverse=True used on the statistics list. -/
def insertByDurationDesc (s : PostureTimeStats) :
    List PostureTimeStats → List PostureTimeStats
  | [] => [s]
  | t :: ts =>
    if t.total_duration_minutes ≤ s.total_duration_minutes then s :: t :: ts
    else t :: insertByDurationDesc s ts

/-- Stable sort, descending by total_duration_minutes. -/
def sortByDurationDesc : List PostureTimeStats → List PostureTimeStats
  | [] => []
  | s :: ss => insertByDurationDesc s (sortByDurationDesc ss)

/-- StatisticsDatabase.get_posture_statistics: group the sessions by posture
id in first-appearance order, total their durations and counts, attach the
percentage of total monitored time, and sort descending by total duration. -/
def get_posture_statistics (sessions : List PostureSession) :
    List PostureTimeStats :=
  let total_time := (sessions.map PostureSession.duration_minutes).sum
  let ids := firstUniques (sessions.map PostureSession.posture_id)
  let stats := ids.map (fun pid =>
    let mine := sessions.filter (fun s => s.posture_id = pid)
    let td := (mine.map PostureSession.duration_minutes).sum
    let n := mine.length
    { posture_id := pid
      total_duration_minutes := round2 td
      session_count := n
      average_session_duration := if 0 < n then round2 (td / n) else 0
      percentage := if 0 < total_time then round2 (td / total_time * 100) else 0
      : PostureTimeStats })
  sortByDurationDesc stats

/-- Numeric fields of the daily-score payload of
calculate_daily_posture_score; grade, feedback and the worst-posture name
are fixed presentational mappings and are not modelled. -/
structure DailyScore where
  total_score : ℤ
  good_posture_score : ℤ
  bad_posture_penalty : ℤ
  session_stability_score : ℤ
  monitoring_time : ℚ
  good_posture_percentage : ℚ

/-- The fixed per-label severity weights of the bad-posture penalty, with
the dict.get default of 2. -/
def posture_weights (pid : ℤ) : ℚ :=
  if pid = 1 then 4
  else if pid = 2 then 3
  else if pid = 3 then 3
  else if pid = 4 then 2
  else if pid = 5 then 2
  else if pid = 6 then 1
  else if pid = 7 then 1
  else 2

/-- Percentage of monitored time spent in label 0, as looked up by the
score from the statistics list (0 when no label-0 row exists). -/
def goodPosturePercentage (stats : List PostureTimeStats) : ℚ :=
  match stats.find? (fun s => s.posture_id = 0) with
  | some s => s.percentage
  | none => 0

/-- StatisticsDatabase.calculate_daily_posture_score on the aggregated
statistics rows of one day.  An empty day scores 0 with all components 0;
otherwise good-posture points (≤ 60), the capped bad-posture penalty
(≤ 40) and the stability-plus-frequency bonus (≤ 20) are combined and the
total clamped to [0, 100]. -/
def calculate_daily_posture_score (stats : List PostureTimeStats) : DailyScore :=
  if stats.isEmpty = true then
    { total_score := 0, good_posture_score := 0, bad_posture_penalty := 0
      session_stability_score := 0, monitoring_time := 0, good_posture_percentage := 0 }
  else
    let total_time := (stats.map PostureTimeStats.total_duration_minutes).sum
    let good_posture_percentage := goodPosturePercentage stats
    let good_posture_score : ℤ := min 60 (pyTrunc (good_posture_percentage * (6/10)))
    let bad_postures := stats.filter (fun s => ¬ s.posture_id = 0)
    let bad_posture_penalty : ℤ :=
      if bad_postures.isEmpty = true then 0
      else
        min 40 (pyTrunc ((bad_postures.map (fun s =>
          s.total_duration_minutes / total_time * 100 * posture_weights s.posture_id
            * (15/100))).sum))
    let total_sessions := (stats.map PostureTimeStats.session_count).sum
    let avg_session_duration : ℚ :=
      if 0 < total_sessions then total_time / total_sessions else 0
    let stability_base : ℤ :=
      if 5 ≤ avg_session_duration ∧ avg_session_duration ≤ 15 then 10
      else if (3 ≤ avg_session_duration ∧ avg_session_duration < 5)
          ∨ (15 < avg_session_duration ∧ avg_session_duration ≤ 20) then 8
      else if (1 ≤ avg_session_duration ∧ avg_session_duration < 3)
          ∨ (20 < avg_session_duration ∧ avg_session_duration ≤ 30) then 5
      else 2
    let frequency_bonus : ℤ :=
      if 3 ≤ total_sessions then 10
      else if 2 ≤ total_sessions then 7
      else if 1 ≤ total_sessions then 5
      else 0
    let session_stability_score := stability_base + frequency_bonus
    { total_score := max 0 (min 100
        (good_posture_score - bad_posture_penalty + session_stability_score))
      good_posture_score := good_posture_score
      bad_posture_penalty := bad_posture_penalty
      session_stability_score := session_stability_score
      monitoring_time := round2 total_time
      good_posture_percentage := round2 good_posture_percentage }

/-- The full daily-score pipeline from reconstructed posture sessions. -/
def daily_score_of_sessions (sessions : List PostureSession) : DailyScore :=
  calculate_daily_posture_score (get_posture_statistics sessions)

/-- The rule-based placeholder entry installed by
create_simple_rule_based_model when no learned model loads. -/
def ruleBasedPlaceholder : MLModel :=
  { name := "rule_based", predictFn := fun _ => none, hasProba := false
    probaFn := fun _ => none }

/-- Prediction environment with no learned models: the model map holds only
the rule-based placeholder, no stage-2 model is loaded, and no exception
escapes the body. -/
def envNoModels : PredictEnv :=
  { models := [ruleBasedPlaceholder], models_stage2 := []
    raiseInBody := false, randLabel := 0, randConf := 1/2 }

/-- The end-to-end test vector of the specification. -/
def fsrEndToEnd : List ℚ := [489, 625, 581, 483, 375, 517, 571, 530, 372, 398, 248]

/-- The predictions-dict entry a single model contributes: nothing for the
rule-based placeholder or a failed predict, its prediction otherwise. -/
def predEntry (f : List ℚ) (m : MLModel) : List (String × ℤ) :=
  if m.name = "rule_based" then []
  else
    match m.predictFn f with
    | none => []
    | some pred => [(m.name, pred)]

/-- A single successfully loaded learned model, as a concrete environment. -/
def singleLearnedModel : MLModel :=
  { name := "rf", predictFn := fun _ => some 2, hasProba := false
    probaFn := fun _ => none }

/-! Theorems. -/

/-- C4: for every pressure vector whose values are all zero, the rule-based
classifier returns label 0 with confidence exactly 0.5. -/
theorem claim_C4_all_zero_default (l : List ℚ)
    (h : l.all (fun x => decide (x = 0)) = true) :
    analyze_fsr_pattern l = (0, 1/2) := by
  have hz : ∀ x ∈ l, x = 0 := by
    intro x hx
    have := List.all_eq_true.mp h x hx
    simpa using this
  have hsum : l.sum = 0 := List.sum_eq_zero hz
  simp [analyze_fsr_pattern, hsum]

/-- C4 witness: the concrete all-zero vector [0, 0, 0, 0]. -/
theorem claim_C4_witness :
    ([(0 : ℚ), 0, 0, 0].all (fun x => decide (x = 0)) = true) ∧
      analyze_fsr_pattern [0, 0, 0, 0] = (0, 1/2) := by
  have h : ([(0 : ℚ), 0, 0, 0].all (fun x => decide (x = 0)) = true) := by simp
  exact ⟨h, claim_C4_all_zero_default [0, 0, 0, 0] h⟩

/-- C5: preprocess_data always returns exactly 11 entries; shorter inputs
are right-padded with zeros, longer inputs truncated to their first 11
entries in order, and length-11 inputs returned unchanged. -/
theorem claim_C5_preprocess_normalizes (l : List ℚ) :
    (preprocess_data l).length = 11 ∧
      (l.length < 11 → preprocess_data l = l ++ List.replicate (11 - l.length) 0) ∧
      (11 < l.length → preprocess_data l = l.take 11) ∧
      (l.length = 11 → preprocess_data l = l) := by
  refine ⟨?_, ?_, ?_, ?_⟩
  · unfold preprocess_data
    split_ifs with h1 h2
    · simp only [List.length_append, List.length_replicate]
      omega
    · simp only [List.length_take]
      omega
    · omega
  · intro h
    unfold preprocess_data
    rw [if_pos (by omega), if_pos h]
  · intro h
    unfold preprocess_data
    rw [if_pos (by omega), if_neg (by omega)]
  · intro h
    unfold preprocess_data
    rw [if_neg (by omega)]

/-- C5 witness: a two-entry input is padded to eleven entries. -/
theorem claim_C5_witness :
    ([(1 : ℚ), 2].length < 11 ∧
        preprocess_data [1, 2] = [1, 2] ++ List.replicate 9 0) ∧
      preprocess_data [0, 1, 2, 3, 4, 5, 6, 7, 8, 9, 10] =
        [0, 1, 2, 3, 4, 5, 6, 7, 8, 9, 10] := by
  refine ⟨⟨by norm_num, ?_⟩, ?_⟩
  · exact (claim_C5_preprocess_normalizes [1, 2]).2.1 (by norm_num)
  · exact (claim_C5_preprocess_normalizes _).2.2.2 (by norm_num)

/-- C1: the stage-2 result replaces the stage-1 result exactly when the
stage-1 label is in the ambiguous set, inertial data is present, a stage-2
model is loaded, and the stage-2 label differs from 0 with confidence above
0.6; otherwise the stage-1 pair is returned unchanged.  In particular the
override never fires with absent inertial data, and a stage-2 label of 0
never changes the stage-1 result. -/
theorem claim_C1_stage2_override_rule (s1 : ℤ × ℚ) (imu : Option (List ℚ))
    (m2 : List MLModel) :
    (stage2_override s1 imu m2 =
        if (s1.1 = 0 ∨ s1.1 = 1) ∧ imu.isSome = true ∧ m2.isEmpty = false
            ∧ (stage2_predict m2 (preprocess_imu_data imu)).1 ≠ 0
            ∧ (stage2_predict m2 (preprocess_imu_data imu)).2 > 3/5
          then stage2_predict m2 (preprocess_imu_data imu)
          else s1) ∧
      (imu = none → stage2_override s1 imu m2 = s1) ∧
      ((stage2_predict m2 (preprocess_imu_data imu)).1 = 0 →
        stage2_override s1 imu m2 = s1) := by
  refine ⟨?_, ?_, ?_⟩
  · simp only [stage2_override]
    split_ifs with h1 h2 h3 h3 <;> tauto
  · intro h
    subst h
    simp only [stage2_override]
    simp
  · intro h
    simp only [stage2_override]
    split_ifs with h1 h2 <;> tauto

/-- C1 witness: with absent inertial data and no stage-2 models the
stage-1 pair (1, 0.7) is returned unchanged, and the 0-labelled stage-2
default never overrides. -/
theorem claim_C1_witness :
    (stage2_override (1, 7/10) none [] = (1, 7/10)) ∧
      (stage2_predict [] (preprocess_imu_data none)).1 = 0 := by
  refine ⟨(claim_C1_stage2_override_rule (1, 7/10) none []).2.1 rfl, rfl⟩

/-- C8: when an exception escapes the prediction body, predict_posture
still returns a pair: the two draws of the random module, which under the
range contracts of random.randint(0, 7) and random.uniform(0.4, 0.8) give
a label in {0, ..., 7} and a confidence in [0.4, 0.8].  Uniformity of the
draws is a property of the modelled random primitives themselves. -/
theorem claim_C8_catastrophic_fallback (env : PredictEnv) (fsr : List ℚ)
    (imu : Option (List ℚ)) (hraise : env.raiseInBody = true)
    (h0 : 0 ≤ env.randLabel) (h7 : env.randLabel ≤ 7)
    (hc0 : 2/5 ≤ env.randConf) (hc1 : env.randConf ≤ 4/5) :
    predict_posture env fsr imu = (env.randLabel, env.randConf) ∧
      0 ≤ (predict_posture env fsr imu).1 ∧ (predict_posture env fsr imu).1 ≤ 7 ∧
      2/5 ≤ (predict_posture env fsr imu).2 ∧ (predict_posture env fsr imu).2 ≤ 4/5 := by
  have h : predict_posture env fsr imu = (env.randLabel, env.randConf) := by
    unfold predict_posture
    rw [if_pos hraise]
  rw [h]
  exact ⟨rfl, h0, h7, hc0, hc1⟩

/-- C8 witness: a concrete failing environment whose draws are 5 and 0.6. -/
theorem claim_C8_witness :
    ((⟨[], [], true, 5, 3/5⟩ : PredictEnv).raiseInBody = true ∧
        0 ≤ (5 : ℤ) ∧ (5 : ℤ) ≤ 7 ∧ (2/5 : ℚ) ≤ 3/5 ∧ (3/5 : ℚ) ≤ 4/5) ∧
      predict_posture ⟨[], [], true, 5, 3/5⟩ [] none = (5, 3/5) := by
  refine ⟨⟨rfl, by norm_num, by norm_num, by norm_num, by norm_num⟩, ?_⟩
  exact (claim_C8_catastrophic_fallback ⟨[], [], true, 5, 3/5⟩ [] none rfl
    (by norm_num) (by norm_num) (by norm_num) (by norm_num)).1

/-- Clamping to [0.3, 0.95] after a cap at 0.9 is the same as clamping to
[0.3, 0.9]. -/
theorem clampConfidence_min9 (x : ℚ) :
    clampConfidence (min (9/10) x) = max (3/10) (min (9/10) x) := by
  unfold clampConfidence
  rw [min_eq_right (le_trans (min_le_left _ _) (by norm_num))]

/-- C6 (amended): on an 11-entry vector with nonzero total and positive
left, right and back sums, the dominance branches (entered on the strict
comparisons of the source) yield confidence clamp(0.3, 0.9,
0.6 + 0.5 * (dominant/weaker - 1)) — capped at 0.9, not 0.95 — while the
balanced branch yields clamp(0.3, 0.95, 0.3 + balance_score) as claimed. -/
theorem claim_C6_amended_confidence (l : List ℚ) (hlen : l.length = 11)
    (htot : ¬ l.sum = 0) (hL : 0 < leftPressure l) (hR : 0 < rightPressure l)
    (hB : 0 < backPressure l) :
    (analyze_fsr_pattern l).2 =
      if leftPressure l > rightPressure l * (3/2) then
        max (3/10) (min (9/10) ((leftPressure l / rightPressure l - 1) * (1/2) + 6/10))
      else if rightPressure l > leftPressure l * (3/2) then
        max (3/10) (min (9/10) ((rightPressure l / leftPressure l - 1) * (1/2) + 6/10))
      else if frontPressure l > backPressure l * (13/10) then
        max (3/10) (min (9/10) ((frontPressure l / backPressure l - 1) * (1/2) + 6/10))
      else
        max (3/10) (min (19/20) ((1 - |leftPressure l - rightPressure l| / l.sum) + 3/10)) := by
  simp only [analyze_fsr_pattern]
  rw [if_neg htot, if_neg (by omega : ¬ l.length < 10)]
  by_cases h1 : leftPressure l > rightPressure l * (3/2)
  · rw [if_pos h1, if_pos h1]
    simp only []
    rw [dominanceConfidence, if_neg (ne_of_gt hR), clampConfidence_min9]
  · rw [if_neg h1, if_neg h1]
    by_cases h2 : rightPressure l > leftPressure l * (3/2)
    · rw [if_pos h2, if_pos h2]
      simp only []
      rw [dominanceConfidence, if_neg (ne_of_gt hL), clampConfidence_min9]
    · rw [if_neg h2, if_neg h2]
      by_cases h3 : frontPressure l > backPressure l * (13/10)
      · rw [if_pos h3, if_pos h3]
        simp only []
        rw [dominanceConfidence, if_neg (ne_of_gt hB), clampConfidence_min9]
      · rw [if_neg h3, if_neg h3]
        simp only [clampConfidence]
        rw [← min_assoc, min_self]

/-- C6 counterexample: the vector [166,0,0,0,0,100,0,0,0,0,0] is in the
left-dominance branch; the code returns confidence 0.9 while the claimed
clamp(0.3, 0.95, 0.6 + 0.5*(166/100 - 1)) would be 0.93. -/
theorem claim_C6_counterexample :
    leftPressure [166, 0, 0, 0, 0, 100, 0, 0, 0, 0, 0] >
        rightPressure [166, 0, 0, 0, 0, 100, 0, 0, 0, 0, 0] * (3/2) ∧
      (analyze_fsr_pattern [(166 : ℚ), 0, 0, 0, 0, 100, 0, 0, 0, 0, 0]).2 = 9/10 ∧
      ¬ (analyze_fsr_pattern [(166 : ℚ), 0, 0, 0, 0, 100, 0, 0, 0, 0, 0]).2 =
        max (3/10) (min (19/20)
          ((leftPressure [166, 0, 0, 0, 0, 100, 0, 0, 0, 0, 0] /
              rightPressure [166, 0, 0, 0, 0, 100, 0, 0, 0, 0, 0] - 1) * (1/2) + 6/10)) := by
  refine ⟨by norm_num [leftPressure, rightPressure], ?_, ?_⟩ <;>
    norm_num [analyze_fsr_pattern, leftPressure, rightPressure, frontPressure,
      backPressure, dominanceConfidence, clampConfidence, listMax, listMean]

/-- C6 witness: a concrete vector in the left-dominance branch with all
hypotheses satisfied; the amended formula evaluates to 0.9. -/
theorem claim_C6_witness :
    (([(150 : ℚ), 10, 0, 0, 0, 50, 0, 0, 10, 0, 0].length = 11) ∧
        ¬ ([(150 : ℚ), 10, 0, 0, 0, 50, 0, 0, 10, 0, 0].sum = 0) ∧
        0 < leftPressure [150, 10, 0, 0, 0, 50, 0, 0, 10, 0, 0] ∧
        0 < rightPressure [150, 10, 0, 0, 0, 50, 0, 0, 10, 0, 0] ∧
        0 < backPressure [150, 10, 0, 0, 0, 50, 0, 0, 10, 0, 0]) ∧
      (analyze_fsr_pattern [(150 : ℚ), 10, 0, 0, 0, 50, 0, 0, 10, 0, 0]).2 = 9/10 := by
  have h1 : ([(150 : ℚ), 10, 0, 0, 0, 50, 0, 0, 10, 0, 0].length = 11) := by norm_num
  have h2 : ¬ ([(150 : ℚ), 10, 0, 0, 0, 50, 0, 0, 10, 0, 0].sum = 0) := by norm_num
  have h3 : 0 < leftPressure [(150 : ℚ), 10, 0, 0, 0, 50, 0, 0, 10, 0, 0] := by
    norm_num [leftPressure]
  have h4 : 0 < rightPressure [(150 : ℚ), 10, 0, 0, 0, 50, 0, 0, 10, 0, 0] := by
    norm_num [rightPressure]
  have h5 : 0 < backPressure [(150 : ℚ), 10, 0, 0, 0, 50, 0, 0, 10, 0, 0] := by
    norm_num [backPressure]
  refine ⟨⟨h1, h2, h3, h4, h5⟩, ?_⟩
  rw [claim_C6_amended_confidence _ h1 h2 h3 h4 h5]
  norm_num [leftPressure, rightPressure, frontPressure, backPressure]

/-- C9 counterexample: on the specified vector with no inertial data and no
learned model, the front pressure sum 2202 exceeds 1.3 times the back
pressure sum 1628, so the rule-based classifier returns label 3 (forward
lean), not the claimed label 0. -/
theorem claim_C9_counterexample :
    (predict_posture envNoModels fsrEndToEnd none).1 = 3 ∧
      ¬ (predict_posture envNoModels fsrEndToEnd none).1 = 0 := by
  have h : predict_posture envNoModels fsrEndToEnd none = (3, 6319/8140) := by
    norm_num [predict_posture, envNoModels, stage1_predict, ruleBasedPlaceholder,
      stage2_override, preprocess_data, fsrEndToEnd, analyze_fsr_pattern,
      leftPressure, rightPressure, frontPressure, backPressure,
      dominanceConfidence, clampConfidence, listMax, listMean]
  rw [h]
  norm_num

/-- C9 (amended): on the specified vector with no inertial data and no
learned model, prediction takes the rule-based path and returns label 3
(the forward-lean family) with confidence 6319/8140 of about 0.776, inside
[0.3, 0.95]. -/
theorem claim_C9_amended_end_to_end :
    predict_posture envNoModels fsrEndToEnd none = (3, 6319/8140) ∧
      (stage1_predict envNoModels.models (preprocess_data fsrEndToEnd)).2 = true ∧
      (3/10 : ℚ) ≤ 6319/8140 ∧ (6319/8140 : ℚ) ≤ 19/20 := by
  refine ⟨?_, ?_, by norm_num, by norm_num⟩
  · norm_num [predict_posture, envNoModels, stage1_predict, ruleBasedPlaceholder,
      stage2_override, preprocess_data, fsrEndToEnd, analyze_fsr_pattern,
      leftPressure, rightPressure, frontPressure, backPressure,
      dominanceConfidence, clampConfidence, listMax, listMean]
  · rfl

/-- One voting-loop step appends exactly this model's predictions entry. -/
theorem stepModel_predictions (f : List ℚ) (st : VoteState) (m : MLModel) :
    (stepModel f st m).predictions = st.predictions ++ predEntry f m := by
  unfold stepModel predEntry
  by_cases hn : m.name = "rule_based"
  · simp [hn]
  · simp only [if_neg hn]
    cases hm : m.predictFn f with
    | none => simp
    | some pred =>
      by_cases hp : m.hasProba = true
      · simp only [if_pos hp]
        cases hq : m.probaFn f with
        | none => simp
        | some proba =>
          simp only []
          split_ifs <;> simp
      · simp only [if_neg hp]
        split_ifs <;> simp

/-- The voting loop over a model list leaves the predictions dict empty
exactly when it started empty and every model is the rule-based placeholder
or fails to predict. -/
theorem foldl_stepModel_predictions_nil (f : List ℚ) (ms : List MLModel) :
    ∀ st : VoteState,
      (ms.foldl (stepModel f) st).predictions = [] ↔
        st.predictions = [] ∧
          ∀ m ∈ ms, m.name = "rule_based" ∨ m.predictFn f = none := by
  induction ms with
  | nil => intro st; simp
  | cons m ms ih =>
    intro st
    have hstep : (stepModel f st m).predictions = [] ↔
        st.predictions = [] ∧ (m.name = "rule_based" ∨ m.predictFn f = none) := by
      rw [stepModel_predictions, List.append_eq_nil]
      unfold predEntry
      by_cases hn : m.name = "rule_based"
      · simp [hn]
      · cases hm : m.predictFn f <;> simp [hn, hm]
    rw [List.foldl_cons, ih (stepModel f st m), hstep]
    constructor
    · rintro ⟨⟨h1, h2⟩, h3⟩
      exact ⟨h1, by simpa [h2] using h3⟩
    · rintro ⟨h1, h2⟩
      exact ⟨⟨h1, h2 m (by simp)⟩, fun x hx => h2 x (by simp [hx])⟩

/-- The ensemble falls back to the rule-based classifier exactly when every
model in the map is the rule-based placeholder or fails to predict. -/
theorem ensemble_predict_ruleBased_iff (ms : List MLModel) (f : List ℚ) :
    (ensemble_predict ms f).2 = true ↔
      ∀ m ∈ ms, m.name = "rule_based" ∨ m.predictFn f = none := by
  have hkey := foldl_stepModel_predictions_nil f ms initVoteState
  simp only [ensemble_predict]
  split_ifs with h
  · have hnil : (ms.foldl (stepModel f) initVoteState).predictions = [] :=
      List.length_eq_zero.mp h
    exact iff_of_true rfl ((hkey.mp hnil).2)
  · refine iff_of_false (by simp) ?_
    intro hall
    apply h
    rw [hkey.mpr ⟨rfl, hall⟩]
    rfl

/-- C2 (amended): the rule-based classifier decides stage 1 exactly when
the model map has at most one entry or contains the rule-based placeholder
(the source requires strictly more than one loaded entry before running the
ensemble) or, in the ensemble branch, every model's prediction fails; with
two or more learned models of which at least one predicts successfully, the
weighted-vote ensemble result is used. -/
theorem claim_C2_amended_fallback_rule (models : List MLModel) (features : List ℚ) :
    (stage1_predict models features).2 = true ↔
      (¬ (models.length > 1 ∧
            (models.all (fun m => ¬ m.name = "rule_based")) = true)) ∨
        ∀ m ∈ models, m.name = "rule_based" ∨ m.predictFn features = none := by
  unfold stage1_predict
  split_ifs with hc
  · rw [ensemble_predict_ruleBased_iff]
    constructor
    · exact fun hall => Or.inr hall
    · intro h
      rcases h with hnc | hall
      · exact absurd hc hnc
      · exact hall
  · exact iff_of_true rfl (Or.inl hc)

/-- C2 counterexample: with exactly one learned model loaded (name "rf",
predicting successfully), the claim demands the ensemble result, but the
source's len(models) > 1 test sends the call to the rule-based classifier. -/
theorem claim_C2_counterexample :
    ([singleLearnedModel].length = 1) ∧
      ¬ ([singleLearnedModel].headD singleLearnedModel).name = "rule_based" ∧
      ([singleLearnedModel].headD singleLearnedModel).predictFn
          (preprocess_data fsrEndToEnd) = some 2 ∧
      (stage1_predict [singleLearnedModel] (preprocess_data fsrEndToEnd)).2 = true := by
  refine ⟨rfl, by simp [singleLearnedModel], rfl, rfl⟩

/-- The final clamp bounds every adjusted confidence into [0.3, 0.95]. -/
theorem clampConfidence_bounds (x : ℚ) :
    3/10 ≤ clampConfidence x ∧ clampConfidence x ≤ 19/20 :=
  ⟨le_max_left _ _, max_le (by norm_num) (min_le_left _ _)⟩

/-- Every rule-based confidence is either the 0.5 default or a clamped
value. -/
theorem analyze_fsr_pattern_conf_cases (l : List ℚ) :
    (analyze_fsr_pattern l).2 = 1/2 ∨
      ∃ x, (analyze_fsr_pattern l).2 = clampConfidence x := by
  simp only [analyze_fsr_pattern]
  split_ifs <;> first
    | (left; rfl)
    | (right; exact ⟨_, rfl⟩)

/-- The rule-based confidence always lies in [0.3, 0.95]. -/
theorem analyze_fsr_pattern_conf_bounds (l : List ℚ) :
    3/10 ≤ (analyze_fsr_pattern l).2 ∧ (analyze_fsr_pattern l).2 ≤ 19/20 := by
  rcases analyze_fsr_pattern_conf_cases l with h | ⟨x, h⟩ <;> rw [h]
  · norm_num
  · exact clampConfidence_bounds x

/-- Every ensemble confidence is a rule-based confidence (fallback) or a
clamped vote share. -/
theorem ensemble_predict_conf_cases (ms : List MLModel) (f : List ℚ) :
    (ensemble_predict ms f).1 = analyze_fsr_pattern f ∨
      ∃ x, (ensemble_predict ms f).1.2 = clampConfidence x := by
  simp only [ensemble_predict]
  split_ifs <;> first
    | (left; rfl)
    | (right; exact ⟨_, rfl⟩)

/-- The ensemble confidence always lies in [0.3, 0.95]. -/
theorem ensemble_predict_conf_bounds (ms : List MLModel) (f : List ℚ) :
    3/10 ≤ (ensemble_predict ms f).1.2 ∧ (ensemble_predict ms f).1.2 ≤ 19/20 := by
  rcases ensemble_predict_conf_cases ms f with h | ⟨x, h⟩
  · rw [h]
    exact analyze_fsr_pattern_conf_bounds f
  · rw [h]
    exact clampConfidence_bounds x

/-- Every stage-2 confidence is the 0.5 default or a clamped value. -/
theorem stage2_predict_conf_cases (ms : List MLModel) (f : List ℚ) :
    (stage2_predict ms f).2 = 1/2 ∨
      ∃ x, (stage2_predict ms f).2 = clampConfidence x := by
  simp only [stage2_predict]
  split_ifs <;> first
    | (left; rfl)
    | (right; exact ⟨_, rfl⟩)

/-- The stage-2 confidence always lies in [0.3, 0.95]. -/
theorem stage2_predict_conf_bounds (ms : List MLModel) (f : List ℚ) :
    3/10 ≤ (stage2_predict ms f).2 ∧ (stage2_predict ms f).2 ≤ 19/20 := by
  rcases stage2_predict_conf_cases ms f with h | ⟨x, h⟩ <;> rw [h]
  · norm_num
  · exact clampConfidence_bounds x

/-- The stage-1 confidence always lies in [0.3, 0.95]. -/
theorem stage1_predict_conf_bounds (ms : List MLModel) (f : List ℚ) :
    3/10 ≤ (stage1_predict ms f).1.2 ∧ (stage1_predict ms f).1.2 ≤ 19/20 := by
  unfold stage1_predict
  split_ifs with h
  · exact ensemble_predict_conf_bounds ms f
  · exact analyze_fsr_pattern_conf_bounds f

/-- The override step returns either the stage-1 or the stage-2
confidence. -/
theorem stage2_override_conf_cases (s1 : ℤ × ℚ) (imu : Option (List ℚ))
    (m2 : List MLModel) :
    (stage2_override s1 imu m2).2 = s1.2 ∨
      (stage2_override s1 imu m2).2 =
        (stage2_predict m2 (preprocess_imu_data imu)).2 := by
  simp only [stage2_override]
  split_ifs <;> first
    | (left; rfl)
    | (right; rfl)

/-- C10: predict_posture is total with its result in a fixed range: label
in {0, ..., 7} (out-of-range stage labels are coerced to (0, 0.5)) and
confidence in [0.3, 0.95] on the ensemble, rule-based, stage-2-override and
catastrophic paths, the latter under the random-draw range contracts. -/
theorem claim_C10_result_ranges (env : PredictEnv) (fsr : List ℚ)
    (imu : Option (List ℚ)) (hL0 : 0 ≤ env.randLabel) (hL7 : env.randLabel ≤ 7)
    (hC0 : 2/5 ≤ env.randConf) (hC1 : env.randConf ≤ 4/5) :
    0 ≤ (predict_posture env fsr imu).1 ∧ (predict_posture env fsr imu).1 ≤ 7 ∧
      3/10 ≤ (predict_posture env fsr imu).2 ∧
      (predict_posture env fsr imu).2 ≤ 19/20 := by
  simp only [predict_posture]
  split_ifs with hr hrange
  · exact ⟨hL0, hL7, le_trans (by norm_num) hC0, le_trans hC1 (by norm_num)⟩
  · refine ⟨hrange.1, hrange.2, ?_, ?_⟩ <;>
      rcases stage2_override_conf_cases
          (stage1_predict env.models (preprocess_data fsr)).1 imu env.models_stage2
        with h | h <;> rw [h]
    · exact (stage1_predict_conf_bounds env.models (preprocess_data fsr)).1
    · exact (stage2_predict_conf_bounds env.models_stage2 (preprocess_imu_data imu)).1
    · exact (stage1_predict_conf_bounds env.models (preprocess_data fsr)).2
    · exact (stage2_predict_conf_bounds env.models_stage2 (preprocess_imu_data imu)).2
  · norm_num

/-- C10 witness: a concrete environment with no models, rule-based path. -/
theorem claim_C10_witness :
    (0 ≤ (0 : ℤ) ∧ (0 : ℤ) ≤ 7 ∧ (2/5 : ℚ) ≤ 1/2 ∧ (1/2 : ℚ) ≤ 4/5) ∧
      (0 ≤ (predict_posture ⟨[], [], false, 0, 1/2⟩ [1, 2, 3] none).1 ∧
        (predict_posture ⟨[], [], false, 0, 1/2⟩ [1, 2, 3] none).1 ≤ 7 ∧
        3/10 ≤ (predict_posture ⟨[], [], false, 0, 1/2⟩ [1, 2, 3] none).2 ∧
        (predict_posture ⟨[], [], false, 0, 1/2⟩ [1, 2, 3] none).2 ≤ 19/20) := by
  refine ⟨⟨by norm_num, by norm_num, by norm_num, by norm_num⟩, ?_⟩
  exact claim_C10_result_ranges ⟨[], [], false, 0, 1/2⟩ [1, 2, 3] none
    (by norm_num) (by norm_num) (by norm_num) (by norm_num)

/-- Rounding half-to-even preserves nonnegativity. -/
theorem roundHalfEven_nonneg (x : ℚ) (h : 0 ≤ x) : 0 ≤ roundHalfEven x := by
  simp only [roundHalfEven]
  have hf : 0 ≤ ⌊x⌋ := Int.floor_nonneg.mpr h
  split_ifs <;> omega

/-- Rounding to two decimals preserves nonnegativity. -/
theorem round2_nonneg (x : ℚ) (h : 0 ≤ x) : 0 ≤ round2 x := by
  unfold round2
  apply div_nonneg _ (by norm_num)
  exact_mod_cast roundHalfEven_nonneg (x * 100) (by positivity)

/-- Python truncation toward zero agrees with the floor on nonnegative
arguments. -/
theorem pyTrunc_of_nonneg (x : ℚ) (h : 0 ≤ x) : pyTrunc x = ⌊x⌋ := by
  unfold pyTrunc
  rw [if_neg (not_lt.mpr h)]

/-- Membership through the stable descending insertion. -/
theorem mem_insertByDurationDesc {x s : PostureTimeStats}
    {l : List PostureTimeStats} :
    x ∈ insertByDurationDesc s l ↔ x = s ∨ x ∈ l := by
  induction l with
  | nil => simp [insertByDurationDesc]
  | cons t ts ih =>
    unfold insertByDurationDesc
    split_ifs with h
    · simp
    · simp only [List.mem_cons, ih]
      tauto

/-- Membership through the stable descending sort. -/
theorem mem_sortByDurationDesc {x : PostureTimeStats}
    {l : List PostureTimeStats} :
    x ∈ sortByDurationDesc l ↔ x ∈ l := by
  induction l with
  | nil => simp [sortByDurationDesc]
  | cons s ss ih => simp [sortByDurationDesc, mem_insertByDurationDesc, ih]

/-- Every percentage produced by the statistics aggregation over sessions
with nonnegative durations is nonnegative. -/
theorem get_posture_statistics_percentage_nonneg (ss : List PostureSession)
    (hd : ∀ s ∈ ss, 0 ≤ s.duration_minutes) :
    ∀ st ∈ get_posture_statistics ss, 0 ≤ st.percentage := by
  intro st hst
  simp only [get_posture_statistics] at hst
  rw [mem_sortByDurationDesc] at hst
  rcases List.mem_map.mp hst with ⟨pid, hpid, rfl⟩
  simp only []
  split_ifs with ht
  · apply round2_nonneg
    have htd : 0 ≤ ((ss.filter (fun s => s.posture_id = pid)).map
        PostureSession.duration_minutes).sum := by
      apply List.sum_nonneg
      intro x hx
      rcases List.mem_map.mp hx with ⟨s, hs, rfl⟩
      exact hd s (List.mem_of_mem_filter hs)
    exact mul_nonneg (div_nonneg htd (le_of_lt ht)) (by norm_num)
  · exact le_refl 0

/-- The looked-up good-posture percentage is nonnegative when sessions have
nonnegative durations. -/
theorem goodPosturePercentage_nonneg (ss : List PostureSession)
    (hd : ∀ s ∈ ss, 0 ≤ s.duration_minutes) :
    0 ≤ goodPosturePercentage (get_posture_statistics ss) := by
  unfold goodPosturePercentage
  cases hf : (get_posture_statistics ss).find? (fun s => s.posture_id = 0) with
  | none => exact le_refl 0
  | some st =>
    exact get_posture_statistics_percentage_nonneg ss hd st
      (List.mem_of_find?_eq_some hf)

/-- C3: for every session list with positive durations (including the empty
list) the daily score is in [0, 100] and equals
clamp(0, 100, good - penalty + stability), with the good component equal to
min(60, floor(0.6 * percentage-of-time-in-label-0)) and the penalty capped
at 40. -/
theorem claim_C3_daily_score_formula (ss : List PostureSession)
    (hpos : (ss.all (fun s => decide (0 < s.duration_minutes))) = true) :
    (0 ≤ (daily_score_of_sessions ss).total_score ∧
        (daily_score_of_sessions ss).total_score ≤ 100) ∧
      (daily_score_of_sessions ss).total_score =
        max 0 (min 100 ((daily_score_of_sessions ss).good_posture_score
          - (daily_score_of_sessions ss).bad_posture_penalty
          + (daily_score_of_sessions ss).session_stability_score)) ∧
      (daily_score_of_sessions ss).good_posture_score =
        min 60 ⌊goodPosturePercentage (get_posture_statistics ss) * (6/10)⌋ ∧
      (daily_score_of_sessions ss).bad_posture_penalty ≤ 40 := by
  have hd : ∀ s ∈ ss, 0 ≤ s.duration_minutes := by
    intro s hs
    have := List.all_eq_true.mp hpos s hs
    exact le_of_lt (by simpa using this)
  have hpct : 0 ≤ goodPosturePercentage (get_posture_statistics ss) :=
    goodPosturePercentage_nonneg ss hd
  unfold daily_score_of_sessions calculate_daily_posture_score
  by_cases he : (get_posture_statistics ss).isEmpty = true
  · rw [if_pos he]
    have hnil : get_posture_statistics ss = [] := List.isEmpty_iff.mp he
    have hgp : goodPosturePercentage (get_posture_statistics ss) = 0 := by
      rw [hnil]
      rfl
    refine ⟨⟨le_refl 0, by norm_num⟩, by norm_num, ?_, by norm_num⟩
    rw [hgp]
    norm_num
  · rw [if_neg he]
    simp only []
    refine ⟨⟨le_max_left _ _, max_le (by norm_num) (min_le_left _ _)⟩, ?_, ?_, ?_⟩
    · first
      | rfl
      | trivial
    · rw [pyTrunc_of_nonneg _ (mul_nonneg hpct (by norm_num))]
    · split_ifs with hb
      · norm_num
      · exact min_le_left _ _

/-- C3 witness: two sessions, 30 minutes of label 0 and 10 of label 1. -/
theorem claim_C3_witness :
    (([⟨0, 0, 0, 30, 9/10⟩, ⟨1, 0, 0, 10, 8/10⟩] :
          List PostureSession).all (fun s => decide (0 < s.duration_minutes)) = true) ∧
      (0 ≤ (daily_score_of_sessions
            [⟨0, 0, 0, 30, 9/10⟩, ⟨1, 0, 0, 10, 8/10⟩]).total_score ∧
        (daily_score_of_sessions
            [⟨0, 0, 0, 30, 9/10⟩, ⟨1, 0, 0, 10, 8/10⟩]).total_score ≤ 100) := by
  have hall : (([⟨0, 0, 0, 30, 9/10⟩, ⟨1, 0, 0, 10, 8/10⟩] :
      List PostureSession).all (fun s => decide (0 < s.duration_minutes)) = true) := by
    simp [List.all_eq_true]
  exact ⟨hall,
    (claim_C3_daily_score_formula [⟨0, 0, 0, 30, 9/10⟩, ⟨1, 0, 0, 10, 8/10⟩] hall).1⟩

/-- Every session emitted by the segmentation loop has strictly positive
extent. -/
theorem sessionsLoop_duration_pos :
    ∀ (recs : List PRecord) (cur : ℤ) (start lastTs : ℚ) (confs : List ℚ),
      ∀ s ∈ sessionsLoop recs cur start lastTs confs,
        0 < s.end_time - s.start_time := by
  intro recs
  induction recs with
  | nil =>
    intro cur start lastTs confs s hs
    simp only [sessionsLoop] at hs
    split_ifs at hs with h
    · rcases List.mem_singleton.mp hs with rfl
      simp only [mkSession]
      rcases div_pos_iff.mp h with ⟨hx, _⟩ | ⟨_, hneg⟩
      · exact hx
      · norm_num at hneg
    · cases hs
  | cons r rest ih =>
    intro cur start lastTs confs s hs
    simp only [sessionsLoop] at hs
    split_ifs at hs with hlab h
    · exact ih cur start r.ts (confs ++ [r.conf]) s hs
    · rcases List.mem_append.mp hs with h1 | h2
      · rcases List.mem_singleton.mp h1 with rfl
        simp only [mkSession]
        rcases div_pos_iff.mp h with ⟨hx, _⟩ | ⟨_, hneg⟩
        · exact hx
        · norm_num at hneg
      · exact ih r.label r.ts r.ts [r.conf] s h2
    · rw [List.nil_append] at hs
      exact ih r.label r.ts r.ts [r.conf] s hs

/-- The segmentation loop tiles the interval from the open session's start
to the last record timestamp: dropped zero-length sessions leave no gap. -/
theorem sessionsLoop_covers :
    ∀ (recs : List PRecord) (cur : ℤ) (start lastTs : ℚ) (confs : List ℚ),
      tsSortedFrom lastTs recs = true → start ≤ lastTs →
      covers start (sessionsLoop recs cur start lastTs confs)
        (lastTsD recs lastTs) := by
  intro recs
  induction recs with
  | nil =>
    intro cur start lastTs confs hsort hle
    simp only [sessionsLoop, lastTsD]
    split_ifs with h
    · exact ⟨rfl, rfl⟩
    · have hzero : lastTs - start ≤ 0 := by
        by_contra hx
        push_neg at hx
        exact h (div_pos hx (by norm_num))
      show start = lastTs
      linarith
  | cons r rest ih =>
    intro cur start lastTs confs hsort hle
    simp only [tsSortedFrom, Bool.and_eq_true, decide_eq_true_eq] at hsort
    obtain ⟨hts, hrest⟩ := hsort
    simp only [sessionsLoop, lastTsD]
    split_ifs with hlab h
    · exact ih cur start r.ts (confs ++ [r.conf]) hrest (le_trans hle hts)
    · exact ⟨rfl, ih r.label r.ts r.ts [r.conf] hrest (le_refl r.ts)⟩
    · have hst : start = r.ts := by
        have hle2 : start ≤ r.ts := le_trans hle hts
        by_contra hne
        have hlt : start < r.ts := lt_of_le_of_ne hle2 hne
        exact h (div_pos (by linarith) (by norm_num))
      rw [List.nil_append, hst]
      exact ih r.label r.ts r.ts [r.conf] hrest (le_refl r.ts)

/-- Every emitted session starts at the open session's start or at a
label-change record. -/
theorem sessionsLoop_start_mem :
    ∀ (recs : List PRecord) (cur : ℤ) (start lastTs : ℚ) (confs : List ℚ),
      ∀ s ∈ sessionsLoop recs cur start lastTs confs,
        s.start_time = start ∨ s.start_time ∈ changePoints cur recs := by
  intro recs
  induction recs with
  | nil =>
    intro cur start lastTs confs s hs
    simp only [sessionsLoop] at hs
    split_ifs at hs
    · rcases List.mem_singleton.mp hs with rfl
      left
      rfl
    · cases hs
  | cons r rest ih =>
    intro cur start lastTs confs s hs
    simp only [sessionsLoop] at hs
    simp only [changePoints]
    split_ifs at hs with hlab h
    · rw [if_pos hlab]
      exact ih cur start r.ts (confs ++ [r.conf]) s hs
    · rw [if_neg hlab]
      rcases List.mem_append.mp hs with h1 | h2
      · rcases List.mem_singleton.mp h1 with rfl
        left
        rfl
      · rcases ih r.label r.ts r.ts [r.conf] s h2 with hstart | hmem
        · right
          rw [hstart]
          exact List.mem_cons_self _ _
        · right
          exact List.mem_cons_of_mem _ hmem
    · rw [if_neg hlab]
      rw [List.nil_append] at hs
      rcases ih r.label r.ts r.ts [r.conf] s hs with hstart | hmem
      · right
        rw [hstart]
        exact List.mem_cons_self _ _
      · right
        exact List.mem_cons_of_mem _ hmem

/-- A tiling list's final session ends at the right endpoint. -/
theorem covers_getLast :
    ∀ (l : List PostureSession) (a b : ℚ) (d : PostureSession),
      covers a l b → l.isEmpty = false → (l.getLastD d).end_time = b := by
  intro l
  induction l with
  | nil =>
    intro a b d h hne
    simp at hne
  | cons s rest ih =>
    intro a b d h hne
    obtain ⟨hstart, hrest⟩ := h
    cases rest with
    | nil => exact hrest
    | cons t ts =>
      rw [List.getLastD_cons]
      exact ih s.end_time b s hrest rfl

/-- A tiling list satisfies the end-equals-next-start chain. -/
theorem covers_chain :
    ∀ (l : List PostureSession) (a b : ℚ), covers a l b →
      List.Chain' (fun s t => s.end_time = t.start_time) l := by
  intro l
  induction l with
  | nil =>
    intro a b h
    exact List.chain'_nil
  | cons s rest ih =>
    intro a b h
    obtain ⟨hstart, hrest⟩ := h
    cases rest with
    | nil => exact List.chain'_singleton s
    | cons t ts =>
      rw [List.chain'_cons]
      exact ⟨hrest.1.symm, ih s.end_time b hrest⟩

/-- C7: on a time-ordered nonempty record list the reconstructed sessions
all have strictly positive extent, tile the covered range from the first to
the last record timestamp without gaps or overlaps (each session's end is
the next one's start), start only at the first record or at label-change
records, and the last session ends at the final record's timestamp. -/
theorem claim_C7_session_partition (recs : List PRecord)
    (hsort : tsSorted recs = true) (hne : recs.isEmpty = false) :
    (∀ s ∈ calculate_posture_durations recs, 0 < s.end_time - s.start_time) ∧
      covers (firstTs recs) (calculate_posture_durations recs) (lastTsD recs 0) ∧
      List.Chain' (fun s t => s.end_time = t.start_time)
        (calculate_posture_durations recs) ∧
      (∀ s ∈ calculate_posture_durations recs,
        s.start_time ∈ boundaryTimes recs) ∧
      ((calculate_posture_durations recs).isEmpty = false →
        ((calculate_posture_durations recs).getLastD dummySession).end_time =
          lastTsD recs 0) := by
  cases recs with
  | nil => simp at hne
  | cons r rest =>
    have hsort2 : tsSortedFrom r.ts rest = true := hsort
    have hcov : covers r.ts (sessionsLoop rest r.label r.ts r.ts [r.conf])
        (lastTsD rest r.ts) :=
      sessionsLoop_covers rest r.label r.ts r.ts [r.conf] hsort2 (le_refl r.ts)
    refine ⟨?_, ?_, ?_, ?_, ?_⟩
    · exact fun s hs => sessionsLoop_duration_pos rest r.label r.ts r.ts [r.conf] s hs
    · exact hcov
    · exact covers_chain _ r.ts (lastTsD rest r.ts) hcov
    · intro s hs
      rcases sessionsLoop_start_mem rest r.label r.ts r.ts [r.conf] s hs with h | h
      · rw [h]
        exact List.mem_cons_self _ _
      · exact List.mem_cons_of_mem _ h
    · intro hne2
      exact covers_getLast _ r.ts (lastTsD rest r.ts) dummySession hcov hne2

/-- C7 witness: three records (labels 0, 1, 1) at timestamps 0, 60, 120
yield two sessions tiling [0, 120]. -/
theorem claim_C7_witness :
    (tsSorted [⟨0, 0, 9/10⟩, ⟨60, 1, 8/10⟩, ⟨120, 1, 7/10⟩] = true ∧
        ([⟨0, 0, 9/10⟩, ⟨60, 1, 8/10⟩, ⟨120, 1, 7/10⟩] :
          List PRecord).isEmpty = false) ∧
      covers (firstTs [⟨0, 0, 9/10⟩, ⟨60, 1, 8/10⟩, ⟨120, 1, 7/10⟩])
        (calculate_posture_durations
          [⟨0, 0, 9/10⟩, ⟨60, 1, 8/10⟩, ⟨120, 1, 7/10⟩])
        (lastTsD [⟨0, 0, 9/10⟩, ⟨60, 1, 8/10⟩, ⟨120, 1, 7/10⟩] 0) := by
  have h1 : tsSorted [(⟨0, 0, 9/10⟩ : PRecord), ⟨60, 1, 8/10⟩, ⟨120, 1, 7/10⟩] = true := by
    norm_num [tsSorted, tsSortedFrom]
  exact ⟨⟨h1, rfl⟩,
    (claim_C7_session_partition [⟨0, 0, 9/10⟩, ⟨60, 1, 8/10⟩, ⟨120, 1, 7/10⟩]
      h1 rfl).2.1⟩

end SoftElectronic
